import Mathlib

/-!
# The Orchestrator scheduling core: a shallow embedding

The development follows `src/Orchestrator.cc` function by function.

* Time points are ticks of the steady clock, durations are tick counts; both
  are signed 64-bit integers. The inactivity timeout is stored in
  milliseconds, as the `std::atomic<std::chrono::milliseconds>` member is, and
  is converted to ticks where the source mixes it with clock values. Every
  arithmetic result is exact inside the 64-bit range; outside it, where C++
  leaves signed overflow undefined, the model takes the two's-complement wrap.
* `std::shared_ptr<Task>` is an address into a heap of task objects.
* The reads of the clock are explicit arguments, one per call of
  `Clock::GetCurrentTime()`.
* Calls on the poller, on `Channel::Advance`, on `WakeUp` and on the worker
  pool are recorded in the list of calls each operation returns. Logging and
  profiler records carry no state of the orchestrator and are left out.
* Every function is one atomic step and the threads are interleavings of such
  steps: locks are not modelled. A timed wait on the wait event is the step
  at which it last looks at the event.
-/

namespace Chili

/-! ## Time -/

/-- The type `Clock::TimePoint`: a count of clock ticks. -/
abbrev TimePoint := Int

/-- The signed 64-bit value an arithmetic result `x` is stored as: `x` itself
from -2^63 up to 2^63 - 1, its two's-complement wrap outside. -/
def wrap64 (x : Int) : Int :=
  (x + 9223372036854775808) % 18446744073709551616 - 9223372036854775808

/-- The range of a signed 64-bit tick count. -/
def InRange64 (x : Int) : Prop :=
  -9223372036854775808 ≤ x ∧ x < 9223372036854775808

instance (x : Int) : Decidable (InRange64 x) := by
  unfold InRange64
  infer_instance

/-- Modelled from the spec: the tick of `Clock` (`Clock.h` is not among the
sources). `AbstractChannel.h` types the channel timeout as a time point of
`std::chrono::steady_clock`, whose tick is one nanosecond; the conversion of
a `std::chrono::milliseconds` value to ticks multiplies its count by
1000000. -/
def millisecondsToTicks (ms : Int) : Int := wrap64 (ms * 1000000)

/-- The sum `now + timeout` of a time point and a duration in milliseconds,
as `std::chrono` computes it: in ticks. -/
def addMilliseconds (t : TimePoint) (ms : Int) : TimePoint :=
  wrap64 (t + millisecondsToTicks ms)

/-- The difference `now - earlier` of two time points, as `std::chrono`
computes it: a duration in ticks. -/
def ticksSince (now earlier : TimePoint) : Int := wrap64 (now - earlier)

/-! ## Channel -/

/-- The enumeration `AbstractChannel::Stage`, in the order of the header. -/
inductive Stage where
  | WaitReadable
  | ReadTimeout
  | Read
  | Process
  | WaitWritable
  | WriteTimeout
  | Write
  | Closed
deriving DecidableEq, Repr, Inhabited

/-- The members of `AbstractChannel` the orchestrator looks at: the identity
of the stream (the pointer `GetStream().get()`), `_stage` and `_timeout`. -/
structure Channel where
  stream : Nat
  stage : Stage
  timeout : TimePoint
deriving DecidableEq, Repr, Inhabited

namespace Channel

/-- Modelled from the spec: `Channel::GetStage` and its two flavours
`GetDefiniteStage` and `GetTentativeStage` (`Channel.cc` is not among the
sources); each reads the atomic `_stage`. -/
def GetStage (c : Channel) : Stage := c.stage

/-- Modelled from the spec: `Channel::SetStage` (`Channel.cc` is not among
the sources); it stores the atomic `_stage`. -/
def SetStage (c : Channel) (s : Stage) : Channel := { c with stage := s }

/-- Modelled from the spec: `Channel::Close` (`Channel.cc` is not among the
sources); the channel is `Closed` afterwards. -/
def Close (c : Channel) : Channel := { c with stage := Stage.Closed }

/-- Modelled from the spec: `Channel::GetStream` (`Channel.cc` is not among
the sources); the stream the channel was built over. -/
def GetStream (c : Channel) : Nat := c.stream

/-- Modelled from the spec: `Channel::GetRequestedTimeout` (`Channel.cc` is
not among the sources); the channel's preferred wakeup deadline, the atomic
`_timeout`. -/
def GetRequestedTimeout (c : Channel) : TimePoint := c.timeout

/-- Modelled from the spec: `Channel::IsReady` (`Channel.cc` is not among the
sources): true in `Read`, `Process`, `Write`, in a timeout stage whose
deadline has passed, and in `Closed`. -/
def IsReady (now : TimePoint) (c : Channel) : Bool :=
  match c.stage with
  | Stage.Read => true
  | Stage.Process => true
  | Stage.Write => true
  | Stage.Closed => true
  | Stage.ReadTimeout => decide (c.timeout ≤ now)
  | Stage.WriteTimeout => decide (c.timeout ≤ now)
  | Stage.WaitReadable => false
  | Stage.WaitWritable => false

/-- Modelled from the spec: `Channel::IsWaitingForClient` (`Channel.cc` is
not among the sources): true only for `WaitReadable` and `WaitWritable`. -/
def IsWaitingForClient (c : Channel) : Bool :=
  match c.stage with
  | Stage.WaitReadable => true
  | Stage.WaitWritable => true
  | _ => false

end Channel

/-! ## Task -/

/-- The class `Orchestrator::Task`: `_channel`, `_lastActive`, `_inProcess`.
The back pointer `_orchestrator` is the state the operations are applied to;
the mutex carries no data. -/
structure Task where
  channel : Channel
  lastActive : TimePoint
  inProcess : Bool
deriving DecidableEq, Repr, Inhabited

namespace Task

/-- The method `Task::IsHandlingInProcess`. -/
def IsHandlingInProcess (t : Task) : Bool := t.inProcess

/-- The method `Task::GetChannel`. -/
def GetChannel (t : Task) : Channel := t.channel

/-- The method `Task::ReachedInactivityTimeout`. `inactivityTimeout` is the
orchestrator's `_inactivityTimeout` in milliseconds, `now` the clock read. -/
def ReachedInactivityTimeout (inactivityTimeout : Int) (now : TimePoint) (t : Task) : Bool :=
  if !t.channel.IsWaitingForClient then
    false
  else
    let diff := ticksSince now t.lastActive
    decide (diff ≥ millisecondsToTicks inactivityTimeout)

end Task

/-! ## Ready predicate and wakeup deadline -/

/-- The method `Orchestrator::IsTaskReady`. `nowT` is the clock read inside
`ReachedInactivityTimeout`, `nowR` the one inside `IsReady`. -/
def IsTaskReady (inactivityTimeout : Int) (nowT nowR : TimePoint) (t : Task) : Bool :=
  if t.IsHandlingInProcess then
    false
  else if t.ReachedInactivityTimeout inactivityTimeout nowT then
    true
  else
    t.GetChannel.IsReady nowR

/-- The body of the loop in `Orchestrator::GetLatestAllowedWakeup`: one task
against the deadline found so far. -/
def wakeupStep (now : TimePoint) (timeout : TimePoint) (t : Task) : TimePoint :=
  let requestedTimeout := t.GetChannel.GetRequestedTimeout
  if requestedTimeout ≥ now ∧ requestedTimeout < timeout then
    requestedTimeout
  else
    timeout

/-- The method `Orchestrator::GetLatestAllowedWakeup` over the task objects
of `_tasks`, in their order. -/
def GetLatestAllowedWakeup (tasks : List Task) (now : TimePoint) (inactivityTimeout : Int) :
    TimePoint :=
  tasks.foldl (wakeupStep now) (addMilliseconds now inactivityTimeout)

/-! ## Poller events and recorded calls -/

/-- Modelled from the spec: the bit masks `Poller::Events::Completion`,
`Poller::Events::Readable` and `Poller::Events::Writable` (`Poller.h` is not
among the sources). Their values are not fixed here: every operation takes
them as a parameter. -/
structure PollerEvents where
  Completion : Nat
  Readable : Nat
  Writable : Nat
deriving DecidableEq, Repr

/-- The test `events & mask` of the source: true when the two masks share a
bit. -/
def hasEvent (events mask : Nat) : Bool := (events &&& mask) != 0

/-- The calls an operation makes on its collaborators, in the order made:
`Poller::Poll`, `Poller::Remove`, `Channel::Advance` on the channel of a task,
`Orchestrator::WakeUp` and `ThreadPool::Post` of the activation of a task. -/
inductive Call where
  | pollerPoll (stream : Nat) (events : Nat)
  | pollerRemove (stream : Nat)
  | channelAdvance (task : Nat)
  | wakeUp
  | threadPoolPost (task : Nat)
deriving DecidableEq, Repr

/-! ## Wait event -/

/-- The class `WaitEvent`, on its boolean `_signalled`. -/
structure WaitEvent where
  signalled : Bool
deriving DecidableEq, Repr, Inhabited

/-- The method `WaitEvent::Signal`. -/
def WaitEvent.Signal (_e : WaitEvent) : WaitEvent := { signalled := true }

namespace WaitEvent

/-- The method `WaitEvent::Reset`. -/
def Reset (_e : WaitEvent) : WaitEvent := { signalled := false }

/-- The method `WaitEvent::Wait()` without a timeout: it returns once the
event is signalled and blocks (`none`) while it is not. -/
def WaitBlocking (e : WaitEvent) : Option Unit :=
  if e.signalled then some () else none

/-- The method `WaitEvent::Wait(timeout)`: `wait_for` with the predicate
`_signalled` returns the value the predicate has when it is last looked at
under the mutex; the event is taken in the state it has at that look, so a
`Signal` of another thread during the wait is a `Signal` before this step.
The method is `const`: the state is the same afterwards. -/
def Wait (e : WaitEvent) (_timeout : Int) : Bool := e.signalled

/-- The method `WaitEvent::TryWait`. -/
def TryWait (e : WaitEvent) : Bool := e.Wait 0

/-- The method `WaitEvent::WaitUntil`, `const` as `Wait(timeout)` is. -/
def WaitUntil (e : WaitEvent) (_t : TimePoint) : Bool := e.signalled

/-- The method `WaitEvent::WaitAndReset()` without a timeout: it returns once
the event is signalled, leaving it unsignalled, and blocks (`none`) while it
is not. -/
def WaitAndResetBlocking (e : WaitEvent) : Option WaitEvent :=
  if e.signalled then some { signalled := false } else none

/-- The method `WaitEvent::WaitAndReset(timeout)`: the result and the state
it leaves. -/
def WaitAndReset (e : WaitEvent) (_timeout : Int) : Bool × WaitEvent :=
  if e.signalled then (true, { signalled := false }) else (false, e)

/-- The method `WaitEvent::TryWaitAndReset`. -/
def TryWaitAndReset (e : WaitEvent) : Bool × WaitEvent := e.WaitAndReset 0

/-- The method `WaitEvent::WaitUntilAndReset`: the result and the state it
leaves. -/
def WaitUntilAndReset (e : WaitEvent) (_t : TimePoint) : Bool × WaitEvent :=
  if e.signalled then (true, { signalled := false }) else (false, e)

/-- The calls on a wait event, for histories of calls. -/
inductive Op where
  | reset
  | signal
  | tryWait
  | wait (timeout : Int)
  | waitUntil (t : TimePoint)
  | tryWaitAndReset
  | waitAndReset (timeout : Int)
  | waitUntilAndReset (t : TimePoint)
deriving DecidableEq, Repr

/-- The waits that do not reset: `TryWait`, `Wait(timeout)`, `WaitUntil`. -/
def Op.isPlainWait : Op → Bool
  | Op.tryWait => true
  | Op.wait _ => true
  | Op.waitUntil _ => true
  | _ => false

/-- One call: what it returns, if it returns a value, and the state it
leaves. -/
def step (e : WaitEvent) : Op → Option Bool × WaitEvent
  | Op.reset => (none, e.Reset)
  | Op.signal => (none, e.Signal)
  | Op.tryWait => (some e.TryWait, e)
  | Op.wait timeout => (some (e.Wait timeout), e)
  | Op.waitUntil t => (some (e.WaitUntil t), e)
  | Op.tryWaitAndReset => (some e.TryWaitAndReset.1, e.TryWaitAndReset.2)
  | Op.waitAndReset timeout => (some (e.WaitAndReset timeout).1, (e.WaitAndReset timeout).2)
  | Op.waitUntilAndReset t => (some (e.WaitUntilAndReset t).1, (e.WaitUntilAndReset t).2)

/-- A history of calls, first call first: the results in order and the state
left. -/
def run : WaitEvent → List Op → List (Option Bool) × WaitEvent
  | e, [] => ([], e)
  | e, op :: ops => ((step e op).1 :: (run (step e op).2 ops).1, (run (step e op).2 ops).2)

end WaitEvent

/-! ## The lookup map -/

/-- The type of `_taskFastLookup`, a `std::map` from the stream pointer to
the task: a list of entries, key first. -/
abbrev TaskMap := List (Nat × Nat)

namespace TaskMap

/-- The call `std::map::find`: the task stored under `k`, if any. -/
def find : TaskMap → Nat → Option Nat
  | [], _ => none
  | (k', v) :: m, k => if k' = k then some v else find m k

/-- The call `std::map::erase` by key. -/
def erase (m : TaskMap) (k : Nat) : TaskMap :=
  m.filter (fun e => decide (e.1 ≠ k))

/-- The statement `map[k] = v`: the entry under `k` is created or
overwritten. -/
def assign (m : TaskMap) (k v : Nat) : TaskMap :=
  (k, v) :: erase m k

end TaskMap

/-! ## Channel factory -/

/-- Modelled from the spec: `ChannelFactory::CreateChannel` and the channel
constructor behind it (`ChannelFactory.h` and `Channel.cc` are not among the
sources): a channel over the given stream that starts in `WaitReadable`; its
first requested timeout is a parameter. -/
def ChannelFactory.CreateChannel (stream : Nat) (timeout0 : TimePoint) : Channel :=
  { stream := stream, stage := Stage.WaitReadable, timeout := timeout0 }

/-! ## Orchestrator state -/

/-- The members of `Orchestrator` the operations below read or write.
`heap` holds the task objects by address and `nextTask` is the address the
next `std::make_shared<Task>()` returns; `tasks` is `_tasks`,
`taskFastLookup` is `_taskFastLookup`, `newEvent` is `_newEvent`, `stop` is
`_stop` and `inactivityTimeout` is `_inactivityTimeout` in milliseconds. -/
structure Orchestrator where
  heap : Nat → Task
  nextTask : Nat
  tasks : List Nat
  taskFastLookup : TaskMap
  newEvent : WaitEvent
  stop : Bool
  inactivityTimeout : Int

namespace Orchestrator

/-- The state the constructor leaves: no task, `_stop{true}` and the
inactivity timeout of 10000 milliseconds of the header. -/
def Create : Orchestrator :=
  { heap := fun _ => default
    nextTask := 0
    tasks := []
    taskFastLookup := []
    newEvent := { signalled := false }
    stop := true
    inactivityTimeout := 10000 }

/-- The method `Orchestrator::SetInactivityTimeout`. -/
def SetInactivityTimeout (o : Orchestrator) (ms : Int) : Orchestrator :=
  { o with inactivityTimeout := ms }

/-- The method `Orchestrator::WakeUp`. -/
def WakeUp (o : Orchestrator) : Orchestrator × List Call :=
  ({ o with newEvent := o.newEvent.Signal }, [Call.wakeUp])

/-- The method `Orchestrator::Add`. `now` is the clock read stored in
`_lastActive`. -/
def Add (E : PollerEvents) (o : Orchestrator) (stream : Nat) (now timeout0 : TimePoint) :
    Orchestrator × List Call :=
  let task := o.nextTask
  let t : Task :=
    { channel := ChannelFactory.CreateChannel stream timeout0
      lastActive := now
      inProcess := false }
  ({ o with
      heap := Function.update o.heap task t
      nextTask := o.nextTask + 1
      tasks := o.tasks ++ [task]
      taskFastLookup := TaskMap.assign o.taskFastLookup t.GetChannel.GetStream task },
    [Call.pollerPoll t.GetChannel.GetStream (E.Completion ||| E.Readable)])

/-- The method `Orchestrator::HandleChannelEvent`, on the channel passed by
reference. -/
def HandleChannelEvent (E : PollerEvents) (channel : Channel) (events : Nat) : Channel :=
  match channel.GetStage with
  | Stage.WaitReadable =>
    if hasEvent events E.Readable then channel.SetStage Stage.Read else channel
  | Stage.WaitWritable =>
    if hasEvent events E.Writable then channel.SetStage Stage.Write else channel
  | Stage.Closed => channel
  | _ => channel.Close

/-- The method `Orchestrator::OnEvent`. The weak pointer found in the map is
locked to the task object at its address. -/
def OnEvent (E : PollerEvents) (o : Orchestrator) (fs : Nat) (events : Nat) :
    Orchestrator × List Call :=
  match TaskMap.find o.taskFastLookup fs with
  | none => (o, [])
  | some task =>
    let t := o.heap task
    let channel :=
      if hasEvent events E.Completion then
        t.GetChannel.Close
      else
        HandleChannelEvent E t.GetChannel events
    WakeUp { o with heap := Function.update o.heap task { t with channel := channel } }

/-- The method `Orchestrator::CollectGarbage`: the stable partition of
`_tasks`, the erasure of the keys of the second part, the truncation. -/
def CollectGarbage (o : Orchestrator) : Orchestrator :=
  let parts := o.tasks.partition
    (fun task => decide ((o.heap task).GetChannel.GetStage ≠ Stage.Closed))
  { o with
    taskFastLookup :=
      parts.2.foldl (fun m task => TaskMap.erase m (o.heap task).GetChannel.GetStream)
        o.taskFastLookup
    tasks := parts.1 }

/-- The method `Orchestrator::Task::Activate` on the task at address `task`.
`advance` is `Channel::Advance` (`Channel.cc` is not among the sources: any
function on channels), `nowT` is the clock read inside
`ReachedInactivityTimeout` and `nowA` the one stored in `_lastActive`. -/
def Activate (E : PollerEvents) (advance : Channel → Channel) (nowT nowA : TimePoint)
    (o : Orchestrator) (task : Nat) : Orchestrator × List Call :=
  let t := o.heap task
  if t.ReachedInactivityTimeout o.inactivityTimeout nowT then
    let closed : Task := { t with channel := t.channel.Close, inProcess := false }
    let woken := WakeUp { o with heap := Function.update o.heap task closed }
    (woken.1, Call.pollerRemove t.channel.GetStream :: woken.2)
  else
    let channel := advance t.channel
    let polls : List Call :=
      match channel.GetStage with
      | Stage.WaitReadable => [Call.pollerPoll channel.GetStream (E.Completion ||| E.Readable)]
      | Stage.WaitWritable => [Call.pollerPoll channel.GetStream (E.Completion ||| E.Writable)]
      | _ => []
    let notify : Bool :=
      match channel.GetStage with
      | Stage.WaitReadable => false
      | Stage.WaitWritable => false
      | _ => true
    let advanced : Task := { channel := channel, lastActive := nowA, inProcess := false }
    let o1 := { o with heap := Function.update o.heap task advanced }
    if notify then
      let woken := WakeUp o1
      (woken.1, Call.channelAdvance task :: polls ++ woken.2)
    else
      (o1, Call.channelAdvance task :: polls)

/-- A close of the channel of the task at address `task`, by whichever
caller of `Channel::Close`. -/
def closeChannel (o : Orchestrator) (task : Nat) : Orchestrator :=
  { o with heap :=
      Function.update o.heap task { o.heap task with channel := (o.heap task).channel.Close } }

/-- The steps of the histories of the lookup invariant: an `Add`, a close of
a channel, a run of `CollectGarbage`. -/
inductive Op where
  | add (stream : Nat) (now timeout0 : TimePoint)
  | close (task : Nat)
  | collectGarbage
deriving DecidableEq, Repr

/-- One step of a history. -/
def step (E : PollerEvents) (o : Orchestrator) : Op → Orchestrator
  | Op.add stream now timeout0 => (Add E o stream now timeout0).1
  | Op.close task => closeChannel o task
  | Op.collectGarbage => CollectGarbage o

/-- A history, run from a state, first step first. -/
def run (E : PollerEvents) (o : Orchestrator) (ops : List Op) : Orchestrator :=
  ops.foldl (step E) o

/-- The streams of the tasks in `_tasks`. -/
def liveStreams (o : Orchestrator) : List Nat :=
  o.tasks.map (fun task => (o.heap task).GetChannel.GetStream)

/-- The streams of the tasks in `_tasks` whose channel is `Closed`: the keys
`CollectGarbage` erases. -/
def garbageStreams (o : Orchestrator) : List Nat :=
  (o.tasks.filter (fun task => decide ((o.heap task).channel.stage = Stage.Closed))).map
    (fun task => (o.heap task).channel.stream)

/-- A history in which no `Add` is given a stream that a task of `_tasks`
is still using at that point. -/
def FreshAdds (E : PollerEvents) : Orchestrator → List Op → Bool
  | _, [] => true
  | o, op :: ops =>
    (match op with
      | Op.add stream _ _ => decide (stream ∉ liveStreams o)
      | _ => true) && FreshAdds E (step E o op) ops

/-- The entry the lookup map is to hold for a task of `_tasks`: the stream
of its channel, mapped to the task. -/
def entryOf (o : Orchestrator) (task : Nat) : Nat × Nat :=
  ((o.heap task).channel.stream, task)

/-- The invariant of the lookup map: its entries are those of the tasks in
`_tasks`, no two tasks of `_tasks` share a stream, and every task of `_tasks`
has an address already handed out. -/
structure LookupInv (o : Orchestrator) : Prop where
  entries : o.taskFastLookup.Perm (o.tasks.map (entryOf o))
  streams : (o.tasks.map (fun task => (o.heap task).channel.stream)).Nodup
  bound : ∀ task ∈ o.tasks, task < o.nextTask

/-! ## The main loop -/

end Orchestrator

/-! ## Specification-side definitions and sample values -/

/-- The requested timeouts of the tasks that are not before `now`, in task
order. -/
def requestedFrom (tasks : List Task) (now : TimePoint) : List TimePoint :=
  (tasks.map (fun t => t.channel.GetRequestedTimeout)).filter (fun r => decide (r ≥ now))

/-- The wakeup deadline in the words of the specification: the minimum of
`now + inactivityTimeout` and of the requested timeouts that are not before
`now`. -/
def latestAllowedWakeupSpec (tasks : List Task) (now : TimePoint) (inactivityTimeout : Int) :
    TimePoint :=
  (requestedFrom tasks now).foldl min (addMilliseconds now inactivityTimeout)

/-- Sample values of the three event masks, one bit each, for the concrete
evaluations below. -/
def sampleEvents : PollerEvents := { Completion := 1, Readable := 2, Writable := 4 }

/-- A task whose channel waits for the client on stream 7 and has requested
no wakeup since time 0. -/
def waitingTask : Task :=
  { channel := { stream := 7, stage := Stage.WaitReadable, timeout := 0 }
    lastActive := 0
    inProcess := false }

/-- An orchestrator with the default timeout of 10000 ms and one task, on
stream 7, added (and so last active) at time 20000000000. -/
def lateTaskState : Orchestrator :=
  (Orchestrator.Add sampleEvents Orchestrator.Create 7 20000000000 0).1

/-- A task in `ReadTimeout` on stream 8 with the given requested timeout. -/
def throttledTask (timeout : TimePoint) : Task :=
  { channel := { stream := 8, stage := Stage.ReadTimeout, timeout := timeout }
    lastActive := 0
    inProcess := false }

/-! ## Claims on the ready predicate and the wakeup deadline -/

/-- C1: `IsTaskReady` is true exactly when the task is not in process and it
either reached its inactivity timeout or its channel is ready; a task that is
in process is never ready, whatever its stage and idle time. -/
theorem IsTaskReady_iff (inactivityTimeout : Int) (nowT nowR : TimePoint) (t : Task) :
    (IsTaskReady inactivityTimeout nowT nowR t = true ↔
      (t.inProcess = false ∧
        (t.ReachedInactivityTimeout inactivityTimeout nowT = true ∨
          t.channel.IsReady nowR = true))) ∧
    (∀ (c : Channel) (lastActive : TimePoint),
      IsTaskReady inactivityTimeout nowT nowR ⟨c, lastActive, true⟩ = false) := by
  refine ⟨?_, ?_⟩
  · unfold IsTaskReady Task.IsHandlingInProcess Task.GetChannel
    cases hp : t.inProcess with
    | true => simp
    | false =>
      cases hr : t.ReachedInactivityTimeout inactivityTimeout nowT <;> simp
  · intro c lastActive
    simp [IsTaskReady, Task.IsHandlingInProcess]

/-! ### The wakeup deadline -/

/-- Inside the 64-bit range a value is stored as it is. -/
theorem wrap64_of_InRange64 (x : Int) (h : InRange64 x) : wrap64 x = x := by
  unfold InRange64 at h
  unfold wrap64
  rw [Int.emod_eq_of_lt (by omega) (by omega)]
  omega

/-- The loop of `GetLatestAllowedWakeup` folds `min` over the requested
timeouts that are not before `now`, from whatever deadline it starts with. -/
theorem foldl_wakeupStep (now : TimePoint) (tasks : List Task) (acc : TimePoint) :
    tasks.foldl (wakeupStep now) acc = (requestedFrom tasks now).foldl min acc := by
  induction tasks generalizing acc with
  | nil => rfl
  | cons t ts ih =>
    simp only [List.foldl_cons, ih]
    unfold requestedFrom wakeupStep Task.GetChannel
    simp only [List.map_cons, List.filter_cons]
    by_cases h : t.channel.GetRequestedTimeout ≥ now
    · simp only [h, decide_True, if_true, List.foldl_cons, true_and]
      by_cases h2 : t.channel.GetRequestedTimeout < acc
      · rw [if_pos h2, min_eq_right (le_of_lt h2)]
      · rw [if_neg h2, min_eq_left (not_lt.mp h2)]
    · simp [h]

/-- A fold of `min` is below its start and below every element. -/
theorem foldl_min_le (l : List Int) (acc : Int) :
    l.foldl min acc ≤ acc ∧ ∀ r ∈ l, l.foldl min acc ≤ r := by
  induction l generalizing acc with
  | nil => simp
  | cons a l ih =>
    simp only [List.foldl_cons, List.mem_cons, forall_eq_or_imp]
    have h := ih (min acc a)
    exact ⟨le_trans h.1 (min_le_left _ _), le_trans h.1 (min_le_right _ _), h.2⟩

/-- A fold of `min` is its start or one of the elements. -/
theorem foldl_min_mem (l : List Int) (acc : Int) :
    l.foldl min acc = acc ∨ l.foldl min acc ∈ l := by
  induction l generalizing acc with
  | nil => simp
  | cons a l ih =>
    simp only [List.foldl_cons, List.mem_cons]
    rcases ih (min acc a) with h | h
    · rcases min_choice acc a with h2 | h2
      · left; rw [h, h2]
      · right; left; rw [h, h2]
    · right; right; exact h

/-- The tasks whose requested timeout is before `now` add nothing to the
requested timeouts that count. -/
theorem requestedFrom_filter (tasks : List Task) (now : TimePoint) :
    requestedFrom (tasks.filter (fun t => decide (t.channel.GetRequestedTimeout ≥ now))) now =
      requestedFrom tasks now := by
  unfold requestedFrom
  rw [List.filter_map, List.filter_filter, List.filter_map]
  congr 1
  apply List.filter_congr
  intro t _
  simp

/-- C2: `GetLatestAllowedWakeup` is the minimum of `now + inactivityTimeout`
(the sum as the source computes it) and of the requested timeouts that are
not before `now`: it equals the fold of `min`, lies below each of those
values and is one of them; the tasks whose requested timeout is before `now`
can be dropped without changing it; with no task it is
`now + inactivityTimeout`; and while the timeout in ticks and the sum stay
inside the 64-bit range, the sum is the exact `now + 1000000 * ms` and the
result is the minimum taken with that exact value. -/
theorem GetLatestAllowedWakeup_eq_min (tasks : List Task) (now : TimePoint)
    (inactivityTimeout : Int) :
    GetLatestAllowedWakeup tasks now inactivityTimeout =
        latestAllowedWakeupSpec tasks now inactivityTimeout ∧
      GetLatestAllowedWakeup tasks now inactivityTimeout ≤
        addMilliseconds now inactivityTimeout ∧
      (∀ r ∈ requestedFrom tasks now,
        GetLatestAllowedWakeup tasks now inactivityTimeout ≤ r) ∧
      (GetLatestAllowedWakeup tasks now inactivityTimeout =
          addMilliseconds now inactivityTimeout ∨
        GetLatestAllowedWakeup tasks now inactivityTimeout ∈ requestedFrom tasks now) ∧
      GetLatestAllowedWakeup
          (tasks.filter (fun t => decide (t.channel.GetRequestedTimeout ≥ now))) now
          inactivityTimeout =
        GetLatestAllowedWakeup tasks now inactivityTimeout ∧
      GetLatestAllowedWakeup [] now inactivityTimeout =
        addMilliseconds now inactivityTimeout ∧
      (InRange64 (inactivityTimeout * 1000000) →
        InRange64 (now + inactivityTimeout * 1000000) →
        addMilliseconds now inactivityTimeout = now + inactivityTimeout * 1000000 ∧
          GetLatestAllowedWakeup tasks now inactivityTimeout =
            (requestedFrom tasks now).foldl min (now + inactivityTimeout * 1000000) ∧
          GetLatestAllowedWakeup [] now inactivityTimeout =
            now + inactivityTimeout * 1000000) := by
  have key : ∀ ts : List Task, GetLatestAllowedWakeup ts now inactivityTimeout =
      (requestedFrom ts now).foldl min (addMilliseconds now inactivityTimeout) :=
    fun ts => foldl_wakeupStep now ts _
  refine ⟨key tasks, ?_, ?_, ?_, ?_, rfl, ?_⟩
  · rw [key]; exact (foldl_min_le _ _).1
  · rw [key]; exact (foldl_min_le _ _).2
  · rw [key]; exact foldl_min_mem _ _
  · rw [key, key, requestedFrom_filter]
  · intro hticks hsum
    have hexact : addMilliseconds now inactivityTimeout =
        now + inactivityTimeout * 1000000 := by
      unfold addMilliseconds millisecondsToTicks
      rw [wrap64_of_InRange64 _ hticks, wrap64_of_InRange64 _ hsum]
    refine ⟨hexact, ?_, ?_⟩
    · rw [key, hexact]
    · rw [key, hexact]
      rfl

/-- C2 at the clock 1000 with a timeout of 1 ms: with no task the deadline is
1001000; with a task that requested 0 (before `now`), one that requested 1500
and one that requested 1200 it is 1200. -/
theorem GetLatestAllowedWakeup_eq_min_witness :
    InRange64 (1 * 1000000) ∧ InRange64 (1000 + 1 * 1000000) ∧
      GetLatestAllowedWakeup [] 1000 1 = 1001000 ∧
      GetLatestAllowedWakeup [waitingTask, throttledTask 1500, throttledTask 1200] 1000 1 =
        1200 :=
  ⟨by decide, by decide,
    ((GetLatestAllowedWakeup_eq_min [] 1000 1).2.2.2.2.2.2 (by decide) (by decide)).2.2,
    ((GetLatestAllowedWakeup_eq_min [waitingTask, throttledTask 1500, throttledTask 1200]
      1000 1).2.2.2.2.2.2 (by decide) (by decide)).2.1⟩

/-- The claim C3 fails as stated: `SetInactivityTimeout` accepts a negative
duration, and with -1 ms, one waiting (non-ready) channel and the clock at
1000 the deadline returned is 1000 - 1000000, before `now`. -/
theorem GetLatestAllowedWakeup_past_counterexample :
    (∃ t ∈ [waitingTask], t.channel.IsReady 1000 = false) ∧
      GetLatestAllowedWakeup [waitingTask] 1000
        (Orchestrator.Create.SetInactivityTimeout (-1)).inactivityTimeout < 1000 := by
  decide

/-- The loop of `GetLatestAllowedWakeup` keeps a deadline that is not before
`now` not before `now`. -/
theorem foldl_wakeupStep_ge (now : TimePoint) (tasks : List Task) (acc : TimePoint)
    (h : now ≤ acc) : now ≤ tasks.foldl (wakeupStep now) acc := by
  induction tasks generalizing acc with
  | nil => exact h
  | cons t ts ih =>
    simp only [List.foldl_cons]
    apply ih
    unfold wakeupStep
    simp only
    split
    · rename_i hc; exact hc.1
    · exact h

/-- C3, amended: for every task list, every `now` and every inactivity
timeout that is not negative and for which the timeout in ticks and
`now + timeout` stay inside the 64-bit range of the clock, set through
`SetInactivityTimeout`, the deadline `GetLatestAllowedWakeup` returns is not
before `now` (whether or not a channel is non-ready). -/
theorem GetLatestAllowedWakeup_not_past (o : Orchestrator) (tasks : List Task)
    (now : TimePoint) (ms : Int) (hms : 0 ≤ ms) (hticks : InRange64 (ms * 1000000))
    (hsum : InRange64 (now + ms * 1000000)) :
    now ≤ GetLatestAllowedWakeup tasks now (o.SetInactivityTimeout ms).inactivityTimeout := by
  unfold GetLatestAllowedWakeup Orchestrator.SetInactivityTimeout
  apply foldl_wakeupStep_ge
  unfold addMilliseconds millisecondsToTicks
  simp only
  rw [wrap64_of_InRange64 _ hticks, wrap64_of_InRange64 _ hsum]
  nlinarith

/-- C3, amended, at the default timeout of 10000 ms with one waiting channel
and the clock at 1000. -/
theorem GetLatestAllowedWakeup_not_past_witness :
    (0 : Int) ≤ 10000 ∧ InRange64 (10000 * 1000000) ∧ InRange64 (1000 + 10000 * 1000000) ∧
      (1000 : Int) ≤ GetLatestAllowedWakeup [waitingTask] 1000
        (Orchestrator.Create.SetInactivityTimeout 10000).inactivityTimeout :=
  ⟨by decide, by decide, by decide,
    GetLatestAllowedWakeup_not_past Orchestrator.Create [waitingTask] 1000 10000 (by decide)
      (by decide) (by decide)⟩

/-! ### Poller events on a channel -/

/-- C4: `HandleChannelEvent` moves a channel in `WaitReadable` to `Read` when
the mask has the `Readable` bit, a channel in `WaitWritable` to `Write` when
the mask has the `Writable` bit, and leaves a `Closed` channel as it is; this
holds for every mask, with or without the `Completion` bit. -/
theorem HandleChannelEvent_transitions (E : PollerEvents) (c : Channel) (events : Nat) :
    (c.stage = Stage.WaitReadable → hasEvent events E.Readable = true →
        (Orchestrator.HandleChannelEvent E c events).stage = Stage.Read) ∧
      (c.stage = Stage.WaitWritable → hasEvent events E.Writable = true →
        (Orchestrator.HandleChannelEvent E c events).stage = Stage.Write) ∧
      (c.stage = Stage.Closed → Orchestrator.HandleChannelEvent E c events = c) := by
  refine ⟨?_, ?_, ?_⟩
  · intro hs he
    simp [Orchestrator.HandleChannelEvent, Channel.GetStage, Channel.SetStage, hs, he]
  · intro hs he
    simp [Orchestrator.HandleChannelEvent, Channel.GetStage, Channel.SetStage, hs, he]
  · intro hs
    simp [Orchestrator.HandleChannelEvent, Channel.GetStage, hs]

/-- C4 at concrete channels: a readable event on a channel in `WaitReadable`,
a writable event on one in `WaitWritable`, a readable event on a closed
one. -/
theorem HandleChannelEvent_transitions_witness :
    (Orchestrator.HandleChannelEvent sampleEvents ⟨7, Stage.WaitReadable, 0⟩ 2).stage =
        Stage.Read ∧
      (Orchestrator.HandleChannelEvent sampleEvents ⟨7, Stage.WaitWritable, 0⟩ 4).stage =
        Stage.Write ∧
      Orchestrator.HandleChannelEvent sampleEvents ⟨7, Stage.Closed, 0⟩ 2 =
        ⟨7, Stage.Closed, 0⟩ :=
  ⟨(HandleChannelEvent_transitions sampleEvents ⟨7, Stage.WaitReadable, 0⟩ 2).1 rfl
      (by decide),
    (HandleChannelEvent_transitions sampleEvents ⟨7, Stage.WaitWritable, 0⟩ 4).2.1 rfl
      (by decide),
    (HandleChannelEvent_transitions sampleEvents ⟨7, Stage.Closed, 0⟩ 2).2.2 rfl⟩

/-- The claim C5 fails as stated: a channel in `WaitReadable` that receives a
mask with only the `Writable` bit (no `Completion`, no `Readable`) is not
closed, it stays in `WaitReadable`; likewise a channel in `WaitWritable` that
receives only `Readable` stays in `WaitWritable`. -/
theorem HandleChannelEvent_close_counterexample :
    hasEvent 4 sampleEvents.Completion = false ∧
      hasEvent 4 sampleEvents.Readable = false ∧
      (Orchestrator.HandleChannelEvent sampleEvents ⟨7, Stage.WaitReadable, 0⟩ 4).stage =
        Stage.WaitReadable ∧
      hasEvent 2 sampleEvents.Completion = false ∧
      hasEvent 2 sampleEvents.Writable = false ∧
      (Orchestrator.HandleChannelEvent sampleEvents ⟨7, Stage.WaitWritable, 0⟩ 2).stage =
        Stage.WaitWritable := by
  decide

/-- C5, amended: for every mask, `HandleChannelEvent` closes a channel whose
stage is `ReadTimeout`, `Read`, `Process`, `WriteTimeout` or `Write`; a
channel in `WaitReadable` whose mask lacks `Readable`, and a channel in
`WaitWritable` whose mask lacks `Writable`, is left as it is. -/
theorem HandleChannelEvent_unhandled (E : PollerEvents) (c : Channel) (events : Nat) :
    (c.stage ≠ Stage.WaitReadable → c.stage ≠ Stage.WaitWritable → c.stage ≠ Stage.Closed →
        Orchestrator.HandleChannelEvent E c events = c.Close ∧
          (Orchestrator.HandleChannelEvent E c events).stage = Stage.Closed) ∧
      (c.stage = Stage.WaitReadable → hasEvent events E.Readable = false →
        Orchestrator.HandleChannelEvent E c events = c) ∧
      (c.stage = Stage.WaitWritable → hasEvent events E.Writable = false →
        Orchestrator.HandleChannelEvent E c events = c) := by
  refine ⟨?_, ?_, ?_⟩
  · intro h1 h2 h3
    cases hs : c.stage <;>
      simp_all [Orchestrator.HandleChannelEvent, Channel.GetStage, Channel.Close]
  · intro hs he
    simp [Orchestrator.HandleChannelEvent, Channel.GetStage, hs, he]
  · intro hs he
    simp [Orchestrator.HandleChannelEvent, Channel.GetStage, hs, he]

/-- C5, amended, at concrete channels: an event on a channel in `Process`
closes it; a writable event on a channel in `WaitReadable` and a readable
event on one in `WaitWritable` leave it as it is. -/
theorem HandleChannelEvent_unhandled_witness :
    (Orchestrator.HandleChannelEvent sampleEvents ⟨7, Stage.Process, 0⟩ 2).stage =
        Stage.Closed ∧
      Orchestrator.HandleChannelEvent sampleEvents ⟨7, Stage.WaitReadable, 0⟩ 4 =
        ⟨7, Stage.WaitReadable, 0⟩ ∧
      Orchestrator.HandleChannelEvent sampleEvents ⟨7, Stage.WaitWritable, 0⟩ 2 =
        ⟨7, Stage.WaitWritable, 0⟩ :=
  ⟨((HandleChannelEvent_unhandled sampleEvents ⟨7, Stage.Process, 0⟩ 2).1
      (by decide) (by decide) (by decide)).2,
    (HandleChannelEvent_unhandled sampleEvents ⟨7, Stage.WaitReadable, 0⟩ 4).2.1 rfl
      (by decide),
    (HandleChannelEvent_unhandled sampleEvents ⟨7, Stage.WaitWritable, 0⟩ 2).2.2 rfl
      (by decide)⟩

/-! ### The poller callback -/

/-- C6: when the stream has an entry in the lookup map and the mask has the
`Completion` bit, `OnEvent` closes the channel of that task, whatever its
stage and the other bits of the mask (the channel is the old one closed,
never one moved to `Read` or `Write`), and wakes the main thread; when the
stream has no entry, `OnEvent` returns the state as it was and makes no
call, so `newEvent` is not signalled. -/
theorem OnEvent_completion_or_absent (E : PollerEvents) (o : Orchestrator) (fs events : Nat) :
    (∀ task, TaskMap.find o.taskFastLookup fs = some task →
        hasEvent events E.Completion = true →
        ((Orchestrator.OnEvent E o fs events).1.heap task).channel =
            (o.heap task).channel.Close ∧
          ((Orchestrator.OnEvent E o fs events).1.heap task).channel.stage = Stage.Closed ∧
          ((Orchestrator.OnEvent E o fs events).1.heap task).channel.stage ≠ Stage.Read ∧
          ((Orchestrator.OnEvent E o fs events).1.heap task).channel.stage ≠ Stage.Write ∧
          (Orchestrator.OnEvent E o fs events).2 = [Call.wakeUp]) ∧
      (TaskMap.find o.taskFastLookup fs = none →
        Orchestrator.OnEvent E o fs events = (o, [])) := by
  refine ⟨?_, ?_⟩
  · intro task hf hc
    simp [Orchestrator.OnEvent, hf, hc, Orchestrator.WakeUp, Task.GetChannel, Channel.Close]
  · intro hf
    simp [Orchestrator.OnEvent, hf]

/-- C6 at concrete states: a mask with `Completion` and `Readable` on the
stream of a waiting task closes its channel; an event on a stream the empty
orchestrator does not know changes nothing. -/
theorem OnEvent_completion_or_absent_witness :
    (((Orchestrator.OnEvent sampleEvents
          (Orchestrator.Add sampleEvents Orchestrator.Create 7 0 0).1 7 3).1.heap 0).channel.stage =
        Stage.Closed) ∧
      Orchestrator.OnEvent sampleEvents Orchestrator.Create 7 3 = (Orchestrator.Create, []) :=
  ⟨((OnEvent_completion_or_absent sampleEvents
      (Orchestrator.Add sampleEvents Orchestrator.Create 7 0 0).1 7 3).1 0
      (by decide) (by decide)).2.1,
    (OnEvent_completion_or_absent sampleEvents Orchestrator.Create 7 3).2 (by decide)⟩

/-! ### Garbage collection -/

/-- Erasing a list of keys one after the other keeps the entries whose key is
not in the list. -/
theorem foldl_erase_eq_filter (g : Nat → Nat) (garbage : List Nat) (m : TaskMap) :
    garbage.foldl (fun m task => TaskMap.erase m (g task)) m =
      m.filter (fun e => decide (e.1 ∉ garbage.map g)) := by
  induction garbage generalizing m with
  | nil => simp
  | cons r rs ih =>
    rw [List.foldl_cons, ih]
    unfold TaskMap.erase
    rw [List.filter_filter]
    apply List.filter_congr
    intro e _
    by_cases h1 : e.1 = g r <;> by_cases h2 : e.1 ∈ List.map g rs <;> simp [h1, h2]

/-- A lookup in a map filtered by key. -/
theorem find_filter_key (p : Nat → Bool) (m : TaskMap) (k : Nat) :
    TaskMap.find (m.filter (fun e => p e.1)) k = if p k then TaskMap.find m k else none := by
  induction m with
  | nil => simp [TaskMap.find]
  | cons e m ih =>
    obtain ⟨k', v⟩ := e
    by_cases hk : k' = k
    · subst hk
      by_cases hp : p k' = true
      · simp [List.filter_cons, hp, TaskMap.find]
      · simp only [Bool.not_eq_true] at hp
        simp [List.filter_cons, hp, ih]
    · by_cases hp : p k' = true
      · simp [List.filter_cons, hp, TaskMap.find, hk, ih]
      · simp only [Bool.not_eq_true] at hp
        simp [List.filter_cons, hp, TaskMap.find, hk, ih]

/-- The task list `CollectGarbage` leaves. -/
theorem CollectGarbage_tasks (o : Orchestrator) :
    (Orchestrator.CollectGarbage o).tasks =
      o.tasks.filter (fun task => decide ((o.heap task).channel.stage ≠ Stage.Closed)) := by
  simp [Orchestrator.CollectGarbage, List.partition_eq_filter_filter, Task.GetChannel,
    Channel.GetStage]

/-- The lookup map `CollectGarbage` leaves. -/
theorem CollectGarbage_lookup (o : Orchestrator) :
    (Orchestrator.CollectGarbage o).taskFastLookup =
      o.taskFastLookup.filter (fun e => decide (e.1 ∉ Orchestrator.garbageStreams o)) := by
  unfold Orchestrator.CollectGarbage Orchestrator.garbageStreams
  simp only [List.partition_eq_filter_filter, Task.GetChannel, Channel.GetStage,
    Channel.GetStream]
  have hg : o.tasks.filter (not ∘ fun task => decide ((o.heap task).channel.stage ≠ Stage.Closed)) =
      o.tasks.filter (fun task => decide ((o.heap task).channel.stage = Stage.Closed)) := by
    apply List.filter_congr
    intro task _
    simp
  rw [foldl_erase_eq_filter (fun task => (o.heap task).channel.stream), hg]

/-- A state whose tasks are all open is a fixed point of `CollectGarbage`. -/
theorem CollectGarbage_fixed (o : Orchestrator)
    (h : ∀ task ∈ o.tasks, (o.heap task).channel.stage ≠ Stage.Closed) :
    Orchestrator.CollectGarbage o = o := by
  have h1 : o.tasks.filter (fun task => decide ((o.heap task).channel.stage ≠ Stage.Closed)) =
      o.tasks := by
    apply List.filter_eq_self.mpr
    intro task ht
    simpa using h task ht
  have h2 : o.tasks.filter
      (not ∘ fun task => decide ((o.heap task).channel.stage ≠ Stage.Closed)) = [] := by
    apply List.filter_eq_nil_iff.mpr
    intro task ht
    simpa using h task ht
  unfold Orchestrator.CollectGarbage
  simp only [List.partition_eq_filter_filter, Task.GetChannel, Channel.GetStage, h1, h2,
    List.foldl_nil]

/-- C7: `CollectGarbage` leaves in `tasks` the tasks whose channel is not
`Closed`, in their original order (a sublist of the original list), removes
from the lookup map exactly the entries under the stream keys of the dropped
tasks and leaves every other entry and every task object as it was; a second
run changes nothing. -/
theorem CollectGarbage_spec (o : Orchestrator) :
    (Orchestrator.CollectGarbage o).tasks =
        o.tasks.filter (fun task => decide ((o.heap task).channel.stage ≠ Stage.Closed)) ∧
      (Orchestrator.CollectGarbage o).tasks.Sublist o.tasks ∧
      (Orchestrator.CollectGarbage o).taskFastLookup =
        o.taskFastLookup.filter (fun e => decide (e.1 ∉ Orchestrator.garbageStreams o)) ∧
      (∀ k, TaskMap.find (Orchestrator.CollectGarbage o).taskFastLookup k =
        if k ∈ Orchestrator.garbageStreams o then none else TaskMap.find o.taskFastLookup k) ∧
      (Orchestrator.CollectGarbage o).heap = o.heap ∧
      Orchestrator.CollectGarbage (Orchestrator.CollectGarbage o) =
        Orchestrator.CollectGarbage o := by
  refine ⟨CollectGarbage_tasks o, ?_, CollectGarbage_lookup o, ?_, rfl, ?_⟩
  · rw [CollectGarbage_tasks]
    exact List.filter_sublist _
  · intro k
    rw [CollectGarbage_lookup,
      find_filter_key (fun key => decide (key ∉ Orchestrator.garbageStreams o))]
    by_cases hk : k ∈ Orchestrator.garbageStreams o <;> simp [hk]
  · apply CollectGarbage_fixed
    intro task ht
    rw [CollectGarbage_tasks] at ht
    have := (List.mem_filter.mp ht).2
    simpa using this

/-! ### The lookup invariant -/

/-- The claim C8 fails as stated: two `Add` calls with the same stream leave
two tasks and one lookup entry, which maps the stream to the second task, so
the first task is in `tasks` and not in the lookup map, also after a run of
`CollectGarbage`. -/
theorem lookup_duplicate_stream_counterexample :
    0 ∈ (Orchestrator.run sampleEvents Orchestrator.Create
          [Orchestrator.Op.add 7 0 0, Orchestrator.Op.add 7 0 0,
            Orchestrator.Op.collectGarbage]).tasks ∧
      TaskMap.find
          (Orchestrator.run sampleEvents Orchestrator.Create
            [Orchestrator.Op.add 7 0 0, Orchestrator.Op.add 7 0 0,
              Orchestrator.Op.collectGarbage]).taskFastLookup
          ((Orchestrator.run sampleEvents Orchestrator.Create
            [Orchestrator.Op.add 7 0 0, Orchestrator.Op.add 7 0 0,
              Orchestrator.Op.collectGarbage]).heap 0).channel.stream ≠ some 0 ∧
      (Orchestrator.run sampleEvents Orchestrator.Create
          [Orchestrator.Op.add 7 0 0, Orchestrator.Op.add 7 0 0,
            Orchestrator.Op.collectGarbage]).taskFastLookup.length ≠
        (Orchestrator.run sampleEvents Orchestrator.Create
          [Orchestrator.Op.add 7 0 0, Orchestrator.Op.add 7 0 0,
            Orchestrator.Op.collectGarbage]).tasks.length := by
  decide

/-- A successful lookup returns an entry of the map. -/
theorem find_some_mem (m : TaskMap) (k v : Nat) (h : TaskMap.find m k = some v) :
    (k, v) ∈ m := by
  induction m with
  | nil => simp [TaskMap.find] at h
  | cons e m ih =>
    obtain ⟨k', v'⟩ := e
    by_cases hk : k' = k
    · simp [TaskMap.find, hk] at h
      simp [hk, h]
    · simp only [TaskMap.find, hk, if_false] at h
      exact List.mem_cons_of_mem _ (ih h)

/-- In a map without a repeated key a lookup returns the entry stored. -/
theorem mem_find_of_nodup (m : TaskMap) (k v : Nat) (hn : (m.map Prod.fst).Nodup)
    (h : (k, v) ∈ m) : TaskMap.find m k = some v := by
  induction m with
  | nil => simp at h
  | cons e m ih =>
    obtain ⟨k', v'⟩ := e
    simp only [List.map_cons, List.nodup_cons] at hn
    rcases List.mem_cons.mp h with h | h
    · cases h
      simp [TaskMap.find]
    · have hk : k' ≠ k := by
        intro hk
        apply hn.1
        rw [hk]
        exact List.mem_map_of_mem Prod.fst h
      simp only [TaskMap.find, hk, if_false]
      exact ih hn.2 h

/-- The empty orchestrator satisfies the lookup invariant. -/
theorem LookupInv_Create : Orchestrator.LookupInv Orchestrator.Create :=
  ⟨by simp [Orchestrator.Create], by simp [Orchestrator.Create],
    by simp [Orchestrator.Create]⟩

/-- The lookup invariant survives an `Add` of a stream no task is using. -/
theorem LookupInv_Add (E : PollerEvents) (o : Orchestrator) (stream : Nat)
    (now timeout0 : TimePoint) (hinv : Orchestrator.LookupInv o)
    (hfresh : stream ∉ Orchestrator.liveStreams o) :
    Orchestrator.LookupInv (Orchestrator.Add E o stream now timeout0).1 := by
  have hne : ∀ task ∈ o.tasks, task ≠ o.nextTask := fun task ht =>
    Nat.ne_of_lt (hinv.bound task ht)
  have hfresh2 : stream ∉ o.tasks.map (fun task => (o.heap task).channel.stream) := hfresh
  have herase : TaskMap.erase o.taskFastLookup stream = o.taskFastLookup := by
    apply List.filter_eq_self.mpr
    intro e he
    have he2 := hinv.entries.subset he
    obtain ⟨task, ht, rfl⟩ := List.mem_map.mp he2
    have : (o.heap task).channel.stream ≠ stream := by
      intro hs
      apply hfresh2
      rw [← hs]
      exact List.mem_map_of_mem (fun task => (o.heap task).channel.stream) ht
    simpa [Orchestrator.entryOf] using this
  refine ⟨?_, ?_, ?_⟩
  · simp only [Orchestrator.Add, TaskMap.assign, Task.GetChannel, Channel.GetStream,
      ChannelFactory.CreateChannel, herase, List.map_append, List.map_cons, List.map_nil]
    have hmap : o.tasks.map (Orchestrator.entryOf
          { o with
            heap := Function.update o.heap o.nextTask
              { channel := { stream := stream, stage := Stage.WaitReadable, timeout := timeout0 }
                lastActive := now
                inProcess := false }
            nextTask := o.nextTask + 1
            tasks := o.tasks ++ [o.nextTask]
            taskFastLookup := (stream, o.nextTask) :: o.taskFastLookup }) =
        o.tasks.map (Orchestrator.entryOf o) := by
      apply List.map_congr_left
      intro task ht
      simp [Orchestrator.entryOf, Function.update_noteq (hne task ht)]
    rw [hmap]
    simp only [Orchestrator.entryOf, Function.update_same]
    exact (List.Perm.cons _ hinv.entries).trans (List.perm_append_singleton _ _).symm
  · simp only [Orchestrator.Add, List.map_append, List.map_cons, List.map_nil,
      Function.update_same, ChannelFactory.CreateChannel]
    have hmap : o.tasks.map (fun task =>
          (Function.update o.heap o.nextTask
            { channel := { stream := stream, stage := Stage.WaitReadable, timeout := timeout0 }
              lastActive := now
              inProcess := false } task).channel.stream) =
        o.tasks.map (fun task => (o.heap task).channel.stream) := by
      apply List.map_congr_left
      intro task ht
      simp [Function.update_noteq (hne task ht)]
    rw [hmap, List.nodup_append]
    refine ⟨hinv.streams, List.nodup_singleton _, ?_⟩
    intro x hx hx2
    rw [List.mem_singleton] at hx2
    exact hfresh2 (hx2 ▸ hx)
  · intro task ht
    simp only [Orchestrator.Add, List.mem_append, List.mem_singleton] at ht ⊢
    rcases ht with ht | ht
    · exact Nat.lt_succ_of_lt (hinv.bound task ht)
    · rw [ht]; exact Nat.lt_succ_self _

/-- The lookup invariant survives the close of a channel. -/
theorem LookupInv_closeChannel (o : Orchestrator) (task : Nat)
    (hinv : Orchestrator.LookupInv o) :
    Orchestrator.LookupInv (Orchestrator.closeChannel o task) := by
  have hstream : ∀ t, ((Orchestrator.closeChannel o task).heap t).channel.stream =
      (o.heap t).channel.stream := by
    intro t
    by_cases ht : t = task
    · subst ht; simp [Orchestrator.closeChannel, Channel.Close]
    · simp [Orchestrator.closeChannel, Function.update_noteq ht]
  have hentry : Orchestrator.entryOf (Orchestrator.closeChannel o task) =
      Orchestrator.entryOf o := by
    funext t
    simp [Orchestrator.entryOf, hstream]
  refine ⟨?_, ?_, hinv.bound⟩
  · rw [hentry]; exact hinv.entries
  · simp only [hstream]; exact hinv.streams

/-- The lookup invariant survives a run of `CollectGarbage`. -/
theorem LookupInv_CollectGarbage (o : Orchestrator) (hinv : Orchestrator.LookupInv o) :
    Orchestrator.LookupInv (Orchestrator.CollectGarbage o) := by
  have hentry : Orchestrator.entryOf (Orchestrator.CollectGarbage o) =
      Orchestrator.entryOf o := rfl
  have hheap : (Orchestrator.CollectGarbage o).heap = o.heap := rfl
  have hkeep : ∀ task ∈ o.tasks,
      decide ((o.heap task).channel.stream ∉ Orchestrator.garbageStreams o) =
        decide ((o.heap task).channel.stage ≠ Stage.Closed) := by
    intro task ht
    apply decide_eq_decide.mpr
    constructor
    · intro hnot hclosed
      apply hnot
      unfold Orchestrator.garbageStreams
      apply List.mem_map.mpr
      exact ⟨task, List.mem_filter.mpr ⟨ht, by simpa using hclosed⟩, rfl⟩
    · intro hopen hmem
      unfold Orchestrator.garbageStreams at hmem
      obtain ⟨other, hother, hsame⟩ := List.mem_map.mp hmem
      have hother2 := List.mem_filter.mp hother
      have heq : other = task := List.inj_on_of_nodup_map hinv.streams hother2.1 ht hsame
      subst heq
      exact hopen (by simpa using hother2.2)
  refine ⟨?_, ?_, ?_⟩
  · rw [hentry, CollectGarbage_lookup, CollectGarbage_tasks]
    have hperm := List.Perm.filter
      (fun e : Nat × Nat => decide (e.1 ∉ Orchestrator.garbageStreams o)) hinv.entries
    rw [List.filter_map] at hperm
    have hfilter : o.tasks.filter
          ((fun e : Nat × Nat => decide (e.1 ∉ Orchestrator.garbageStreams o)) ∘
            Orchestrator.entryOf o) =
        o.tasks.filter (fun task => decide ((o.heap task).channel.stage ≠ Stage.Closed)) := by
      apply List.filter_congr
      intro task ht
      simpa [Orchestrator.entryOf] using hkeep task ht
    rw [hfilter] at hperm
    exact hperm
  · rw [hheap, CollectGarbage_tasks]
    exact List.Nodup.sublist (List.Sublist.map _ (List.filter_sublist _)) hinv.streams
  · intro task ht
    rw [CollectGarbage_tasks] at ht
    exact hinv.bound task (List.mem_filter.mp ht).1

/-- The lookup invariant survives every history whose `Add`s use streams no
live task is using. -/
theorem LookupInv_run (E : PollerEvents) (ops : List Orchestrator.Op) (o : Orchestrator)
    (hinv : Orchestrator.LookupInv o) (hfresh : Orchestrator.FreshAdds E o ops = true) :
    Orchestrator.LookupInv (Orchestrator.run E o ops) := by
  induction ops generalizing o with
  | nil => exact hinv
  | cons op ops ih =>
    simp only [Orchestrator.FreshAdds, Bool.and_eq_true] at hfresh
    simp only [Orchestrator.run, List.foldl_cons]
    apply ih _ _ hfresh.2
    cases op with
    | add stream now timeout0 =>
      have h1 : stream ∉ Orchestrator.liveStreams o := by simpa using hfresh.1
      exact LookupInv_Add E o stream now timeout0 hinv h1
    | close task => exact LookupInv_closeChannel o task hinv
    | collectGarbage => exact LookupInv_CollectGarbage o hinv

/-- Under the lookup invariant a task is in `tasks` exactly when the lookup
map holds it under its stream, and the two have the same number of
entries. -/
theorem LookupInv_iff (o : Orchestrator) (hinv : Orchestrator.LookupInv o) :
    (∀ task, task ∈ o.tasks ↔
        TaskMap.find o.taskFastLookup (o.heap task).channel.stream = some task) ∧
      o.taskFastLookup.length = o.tasks.length := by
  have hkeys : (o.taskFastLookup.map Prod.fst).Nodup := by
    have hp := List.Perm.map Prod.fst hinv.entries
    rw [List.map_map] at hp
    exact hp.nodup_iff.mpr hinv.streams
  refine ⟨?_, ?_⟩
  · intro task
    constructor
    · intro ht
      apply mem_find_of_nodup _ _ _ hkeys
      exact hinv.entries.symm.subset (List.mem_map_of_mem (Orchestrator.entryOf o) ht)
    · intro hf
      have hmem := hinv.entries.subset (find_some_mem _ _ _ hf)
      obtain ⟨other, hother, heq⟩ := List.mem_map.mp hmem
      simp only [Orchestrator.entryOf, Prod.mk.injEq] at heq
      rw [← heq.2]
      exact hother
  · rw [hinv.entries.length_eq, List.length_map]

/-- C8, amended: in every state reached from the empty orchestrator by `Add`
calls, channel closes and runs of `CollectGarbage`, where no `Add` is given a
stream that a task of `tasks` is still using, a task is in `tasks` exactly
when the lookup map holds it under its stream key, and the lookup map has as
many entries as `tasks` has tasks (in every such state, so after every
`CollectGarbage`). -/
theorem lookup_iff_tasks (E : PollerEvents) (ops : List Orchestrator.Op)
    (hfresh : Orchestrator.FreshAdds E Orchestrator.Create ops = true) :
    (∀ task, task ∈ (Orchestrator.run E Orchestrator.Create ops).tasks ↔
        TaskMap.find (Orchestrator.run E Orchestrator.Create ops).taskFastLookup
          ((Orchestrator.run E Orchestrator.Create ops).heap task).channel.stream =
            some task) ∧
      (Orchestrator.run E Orchestrator.Create ops).taskFastLookup.length =
        (Orchestrator.run E Orchestrator.Create ops).tasks.length :=
  LookupInv_iff _ (LookupInv_run E ops Orchestrator.Create LookupInv_Create hfresh)

/-- C8, amended, on a history with two streams: both are added, the channel
of the first task is closed and collected, and the stream of the first is
added again; the lookup map and `tasks` then hold two entries each. -/
theorem lookup_iff_tasks_witness :
    Orchestrator.FreshAdds sampleEvents Orchestrator.Create
        [Orchestrator.Op.add 7 0 0, Orchestrator.Op.add 8 0 0, Orchestrator.Op.close 0,
          Orchestrator.Op.collectGarbage, Orchestrator.Op.add 7 5 5] = true ∧
      (Orchestrator.run sampleEvents Orchestrator.Create
          [Orchestrator.Op.add 7 0 0, Orchestrator.Op.add 8 0 0, Orchestrator.Op.close 0,
            Orchestrator.Op.collectGarbage, Orchestrator.Op.add 7 5 5]).taskFastLookup.length =
        (Orchestrator.run sampleEvents Orchestrator.Create
          [Orchestrator.Op.add 7 0 0, Orchestrator.Op.add 8 0 0, Orchestrator.Op.close 0,
            Orchestrator.Op.collectGarbage, Orchestrator.Op.add 7 5 5]).tasks.length :=
  ⟨by decide,
    (lookup_iff_tasks sampleEvents
      [Orchestrator.Op.add 7 0 0, Orchestrator.Op.add 8 0 0, Orchestrator.Op.close 0,
        Orchestrator.Op.collectGarbage, Orchestrator.Op.add 7 5 5] (by decide)).2⟩

/-! ### Activation -/

/-- C9: when the task has not reached its inactivity timeout, `Activate`
calls `Advance` once, stores the clock read in `lastActive` and clears
`inProcess`; if `Advance` left the channel in `WaitReadable` the only other
call arms the poller for `Completion | Readable`, if it left it in
`WaitWritable` the only other call arms the poller for
`Completion | Writable`, and in both cases `newEvent` is untouched; for every
other stage no poller call is made and `WakeUp` is called once. -/
theorem Activate_advance (E : PollerEvents) (advance : Channel → Channel)
    (nowT nowA : TimePoint) (o : Orchestrator) (task : Nat)
    (h : (o.heap task).ReachedInactivityTimeout o.inactivityTimeout nowT = false) :
    ((Orchestrator.Activate E advance nowT nowA o task).1.heap task).channel =
        advance (o.heap task).channel ∧
      ((Orchestrator.Activate E advance nowT nowA o task).1.heap task).lastActive = nowA ∧
      ((Orchestrator.Activate E advance nowT nowA o task).1.heap task).inProcess = false ∧
      ((advance (o.heap task).channel).stage = Stage.WaitReadable →
        (Orchestrator.Activate E advance nowT nowA o task).2 =
            [Call.channelAdvance task,
              Call.pollerPoll (advance (o.heap task).channel).stream
                (E.Completion ||| E.Readable)] ∧
          (Orchestrator.Activate E advance nowT nowA o task).1.newEvent = o.newEvent) ∧
      ((advance (o.heap task).channel).stage = Stage.WaitWritable →
        (Orchestrator.Activate E advance nowT nowA o task).2 =
            [Call.channelAdvance task,
              Call.pollerPoll (advance (o.heap task).channel).stream
                (E.Completion ||| E.Writable)] ∧
          (Orchestrator.Activate E advance nowT nowA o task).1.newEvent = o.newEvent) ∧
      ((advance (o.heap task).channel).stage ≠ Stage.WaitReadable →
        (advance (o.heap task).channel).stage ≠ Stage.WaitWritable →
        (Orchestrator.Activate E advance nowT nowA o task).2 =
            [Call.channelAdvance task, Call.wakeUp] ∧
          (Orchestrator.Activate E advance nowT nowA o task).1.newEvent.signalled = true) := by
  unfold Orchestrator.Activate
  simp only [h, Bool.false_eq_true, if_false, Channel.GetStage, Channel.GetStream]
  cases hs : (advance (o.heap task).channel).stage <;>
    simp [Orchestrator.WakeUp, WaitEvent.Signal]

/-- C9 on a task added at time 0 and activated at time 5, with an `Advance`
that leaves the channel in `WaitReadable`, and with one that moves it to
`Process`. -/
theorem Activate_advance_witness :
    ((Orchestrator.Add sampleEvents Orchestrator.Create 7 0 0).1.heap 0).ReachedInactivityTimeout
        (Orchestrator.Add sampleEvents Orchestrator.Create 7 0 0).1.inactivityTimeout 5 = false ∧
      (Orchestrator.Activate sampleEvents (fun c => c) 5 6
          (Orchestrator.Add sampleEvents Orchestrator.Create 7 0 0).1 0).2 =
        [Call.channelAdvance 0, Call.pollerPoll 7 3] ∧
      (Orchestrator.Activate sampleEvents (fun c => c.SetStage Stage.Process) 5 6
          (Orchestrator.Add sampleEvents Orchestrator.Create 7 0 0).1 0).2 =
        [Call.channelAdvance 0, Call.wakeUp] :=
  ⟨by decide,
    ((Activate_advance sampleEvents (fun c => c) 5 6
      (Orchestrator.Add sampleEvents Orchestrator.Create 7 0 0).1 0 (by decide)).2.2.2.1
        (by decide)).1,
    ((Activate_advance sampleEvents (fun c => c.SetStage Stage.Process) 5 6
      (Orchestrator.Add sampleEvents Orchestrator.Create 7 0 0).1 0 (by decide)).2.2.2.2.2
        (by decide) (by decide)).1⟩

/-- What a true `ReachedInactivityTimeout` says about the task. -/
theorem ReachedInactivityTimeout_true (inactivityTimeout : Int) (now : TimePoint) (t : Task)
    (h : t.ReachedInactivityTimeout inactivityTimeout now = true) :
    t.channel.IsWaitingForClient = true ∧
      ticksSince now t.lastActive ≥ millisecondsToTicks inactivityTimeout := by
  unfold Task.ReachedInactivityTimeout at h
  cases hw : t.channel.IsWaitingForClient
  · simp [hw] at h
  · simpa [hw] using h

/-- When the task has not reached its inactivity timeout `Activate` takes the
path of `Advance`: it removes nothing from the poller, calls `Advance` and
leaves the channel `Advance` returned. -/
theorem Activate_of_not_reached (E : PollerEvents) (advance : Channel → Channel)
    (nowT nowA : TimePoint) (o : Orchestrator) (task : Nat)
    (h : (o.heap task).ReachedInactivityTimeout o.inactivityTimeout nowT = false) :
    (∀ stream, Call.pollerRemove stream ∉ (Orchestrator.Activate E advance nowT nowA o task).2) ∧
      Call.channelAdvance task ∈ (Orchestrator.Activate E advance nowT nowA o task).2 ∧
      ((Orchestrator.Activate E advance nowT nowA o task).1.heap task).channel =
        advance (o.heap task).channel := by
  unfold Orchestrator.Activate
  simp only [h, Bool.false_eq_true, if_false, Channel.GetStage, Channel.GetStream]
  cases hs : (advance (o.heap task).channel).stage <;>
    simp [Orchestrator.WakeUp]

/-- C10: when the task has reached its inactivity timeout, `Activate` makes
two calls, the removal of the stream from the poller and `WakeUp`, closes the
channel, clears `inProcess`, leaves `lastActive` as it was and does not call
`Advance`. Conversely, whenever `Activate` removes a stream from the poller,
which it does on this path only, the channel was waiting for the client and
`now - lastActive >= inactivityTimeout` held for the clock read of the check:
as the source computes the two sides, and, while the difference and the
timeout in ticks stay inside the 64-bit range, as the exact
`now - lastActive >= 1000000 * ms`. Inside that range a task idle for less
than the timeout, and any task whose channel is not waiting for the client,
is not closed on this path: `Activate` removes nothing from the poller, calls
`Advance` and leaves the channel `Advance` returned. -/
theorem Activate_timeout (E : PollerEvents) (advance : Channel → Channel)
    (nowT nowA : TimePoint) (o : Orchestrator) (task : Nat) :
    ((o.heap task).ReachedInactivityTimeout o.inactivityTimeout nowT = true →
        (Orchestrator.Activate E advance nowT nowA o task).2 =
            [Call.pollerRemove (o.heap task).channel.stream, Call.wakeUp] ∧
          ((Orchestrator.Activate E advance nowT nowA o task).1.heap task).channel =
            (o.heap task).channel.Close ∧
          ((Orchestrator.Activate E advance nowT nowA o task).1.heap task).channel.stage =
            Stage.Closed ∧
          ((Orchestrator.Activate E advance nowT nowA o task).1.heap task).inProcess = false ∧
          ((Orchestrator.Activate E advance nowT nowA o task).1.heap task).lastActive =
            (o.heap task).lastActive ∧
          (Orchestrator.Activate E advance nowT nowA o task).1.newEvent.signalled = true ∧
          Call.channelAdvance task ∉ (Orchestrator.Activate E advance nowT nowA o task).2) ∧
      (∀ stream, Call.pollerRemove stream ∈ (Orchestrator.Activate E advance nowT nowA o task).2 →
        (o.heap task).channel.IsWaitingForClient = true ∧
          ticksSince nowT (o.heap task).lastActive ≥
            millisecondsToTicks o.inactivityTimeout) ∧
      (InRange64 (nowT - (o.heap task).lastActive) →
        InRange64 (o.inactivityTimeout * 1000000) →
        ∀ stream,
          Call.pollerRemove stream ∈ (Orchestrator.Activate E advance nowT nowA o task).2 →
          (o.heap task).channel.IsWaitingForClient = true ∧
            nowT - (o.heap task).lastActive ≥ o.inactivityTimeout * 1000000) ∧
      (InRange64 (nowT - (o.heap task).lastActive) →
        InRange64 (o.inactivityTimeout * 1000000) →
        nowT - (o.heap task).lastActive < o.inactivityTimeout * 1000000 →
        (∀ stream,
            Call.pollerRemove stream ∉ (Orchestrator.Activate E advance nowT nowA o task).2) ∧
          Call.channelAdvance task ∈ (Orchestrator.Activate E advance nowT nowA o task).2 ∧
          ((Orchestrator.Activate E advance nowT nowA o task).1.heap task).channel =
            advance (o.heap task).channel) ∧
      (InRange64 (nowT - (o.heap task).lastActive) →
        InRange64 (o.inactivityTimeout * 1000000) →
        (o.heap task).channel.IsWaitingForClient = true →
        nowT - (o.heap task).lastActive ≥ o.inactivityTimeout * 1000000 →
        (Orchestrator.Activate E advance nowT nowA o task).2 =
            [Call.pollerRemove (o.heap task).channel.stream, Call.wakeUp] ∧
          ((Orchestrator.Activate E advance nowT nowA o task).1.heap task).channel.stage =
            Stage.Closed) ∧
      ((o.heap task).channel.IsWaitingForClient = false →
        (∀ stream,
            Call.pollerRemove stream ∉ (Orchestrator.Activate E advance nowT nowA o task).2) ∧
          Call.channelAdvance task ∈ (Orchestrator.Activate E advance nowT nowA o task).2 ∧
          ((Orchestrator.Activate E advance nowT nowA o task).1.heap task).channel =
            advance (o.heap task).channel) := by
  have hpath : (o.heap task).ReachedInactivityTimeout o.inactivityTimeout nowT = true →
      (Orchestrator.Activate E advance nowT nowA o task).2 =
          [Call.pollerRemove (o.heap task).channel.stream, Call.wakeUp] ∧
        ((Orchestrator.Activate E advance nowT nowA o task).1.heap task).channel =
          (o.heap task).channel.Close ∧
        ((Orchestrator.Activate E advance nowT nowA o task).1.heap task).channel.stage =
          Stage.Closed ∧
        ((Orchestrator.Activate E advance nowT nowA o task).1.heap task).inProcess = false ∧
        ((Orchestrator.Activate E advance nowT nowA o task).1.heap task).lastActive =
          (o.heap task).lastActive ∧
        (Orchestrator.Activate E advance nowT nowA o task).1.newEvent.signalled = true ∧
        Call.channelAdvance task ∉ (Orchestrator.Activate E advance nowT nowA o task).2 := by
    intro h
    unfold Orchestrator.Activate
    simp [h, Orchestrator.WakeUp, WaitEvent.Signal, Channel.GetStream, Channel.Close]
  have hconv : ∀ stream,
      Call.pollerRemove stream ∈ (Orchestrator.Activate E advance nowT nowA o task).2 →
      (o.heap task).channel.IsWaitingForClient = true ∧
        ticksSince nowT (o.heap task).lastActive ≥
          millisecondsToTicks o.inactivityTimeout := by
    intro stream hmem
    cases h : (o.heap task).ReachedInactivityTimeout o.inactivityTimeout nowT
    · exact absurd hmem ((Activate_of_not_reached E advance nowT nowA o task h).1 stream)
    · exact ReachedInactivityTimeout_true _ _ _ h
  have hexact : InRange64 (nowT - (o.heap task).lastActive) →
      InRange64 (o.inactivityTimeout * 1000000) →
      ticksSince nowT (o.heap task).lastActive = nowT - (o.heap task).lastActive ∧
        millisecondsToTicks o.inactivityTimeout = o.inactivityTimeout * 1000000 := by
    intro hdiff hticks
    unfold ticksSince millisecondsToTicks
    exact ⟨wrap64_of_InRange64 _ hdiff, wrap64_of_InRange64 _ hticks⟩
  refine ⟨hpath, hconv, ?_, ?_, ?_, ?_⟩
  · intro hdiff hticks stream hmem
    have h := hconv stream hmem
    rw [(hexact hdiff hticks).1, (hexact hdiff hticks).2] at h
    exact h
  · intro hdiff hticks hlt
    apply Activate_of_not_reached
    cases h : (o.heap task).ReachedInactivityTimeout o.inactivityTimeout nowT
    · rfl
    · have h2 := (ReachedInactivityTimeout_true _ _ _ h).2
      rw [(hexact hdiff hticks).1, (hexact hdiff hticks).2] at h2
      exact absurd hlt (not_lt.mpr h2)
  · intro hdiff hticks hw hge
    have hreached : (o.heap task).ReachedInactivityTimeout o.inactivityTimeout nowT = true := by
      unfold Task.ReachedInactivityTimeout
      rw [(hexact hdiff hticks).1, (hexact hdiff hticks).2]
      simp [hw, hge]
    exact ⟨(hpath hreached).1, (hpath hreached).2.2.1⟩
  · intro hw
    apply Activate_of_not_reached
    unfold Task.ReachedInactivityTimeout
    simp [hw]

/-- C10 on a task last active at 20000000000 under the default timeout of
10000 ms. Activated at 30000000000, 10 s later, it is closed on the timeout
path and the exact difference is at least the timeout. Activated at
21000000000, 1 s later, it is not: nothing is removed from the poller and
`Advance` is called. -/
theorem Activate_timeout_witness :
    (lateTaskState.heap 0).lastActive = 20000000000 ∧
      (lateTaskState.heap 0).ReachedInactivityTimeout lateTaskState.inactivityTimeout
        30000000000 = true ∧
      (Orchestrator.Activate sampleEvents (fun c => c) 30000000000 30000000001
          lateTaskState 0).2 = [Call.pollerRemove 7, Call.wakeUp] ∧
      (30000000000 : Int) - 20000000000 ≥ 10000 * 1000000 ∧
      ((21000000000 : Int) - 20000000000 < 10000 * 1000000 ∧
        Call.pollerRemove 7 ∉
          (Orchestrator.Activate sampleEvents (fun c => c) 21000000000 21000000001
            lateTaskState 0).2 ∧
        Call.channelAdvance 0 ∈
          (Orchestrator.Activate sampleEvents (fun c => c) 21000000000 21000000001
            lateTaskState 0).2 ∧
        (Orchestrator.Activate sampleEvents (fun c => c) 21000000000 21000000001
            lateTaskState 0).2 = [Call.channelAdvance 0, Call.pollerPoll 7 3]) :=
  ⟨by decide, by decide,
    ((Activate_timeout sampleEvents (fun c => c) 30000000000 30000000001
      lateTaskState 0).1 (by decide)).1,
    ((Activate_timeout sampleEvents (fun c => c) 30000000000 30000000001
      lateTaskState 0).2.2.1 (by decide) (by decide) 7 (by decide)).2,
    by decide,
    ((Activate_timeout sampleEvents (fun c => c) 21000000000 21000000001
      lateTaskState 0).2.2.2.1 (by decide) (by decide) (by decide)).1 7,
    ((Activate_timeout sampleEvents (fun c => c) 21000000000 21000000001
      lateTaskState 0).2.2.2.1 (by decide) (by decide) (by decide)).2.1,
    by decide⟩

/-! ### The inactivity timeout -/

/-- C11: `ReachedInactivityTimeout` is true exactly when the channel is
waiting for the client and `now - lastActive >= inactivityTimeout`, the two
sides as the source computes them; while the difference and the timeout in
ticks stay inside the 64-bit range this is the comparison of the exact
values; equality counts as timed out; for a channel that is not waiting for
the client the result is false whatever the clock reads. -/
theorem ReachedInactivityTimeout_iff (inactivityTimeout : Int) (now : TimePoint) (t : Task) :
    (t.ReachedInactivityTimeout inactivityTimeout now = true ↔
        t.channel.IsWaitingForClient = true ∧
          ticksSince now t.lastActive ≥ millisecondsToTicks inactivityTimeout) ∧
      (InRange64 (now - t.lastActive) → InRange64 (inactivityTimeout * 1000000) →
        (t.ReachedInactivityTimeout inactivityTimeout now = true ↔
          t.channel.IsWaitingForClient = true ∧
            now - t.lastActive ≥ inactivityTimeout * 1000000)) ∧
      (t.channel.IsWaitingForClient = true →
        ticksSince now t.lastActive = millisecondsToTicks inactivityTimeout →
        t.ReachedInactivityTimeout inactivityTimeout now = true) ∧
      (t.channel.IsWaitingForClient = false →
        t.ReachedInactivityTimeout inactivityTimeout now = false) := by
  have hiff : t.ReachedInactivityTimeout inactivityTimeout now = true ↔
      t.channel.IsWaitingForClient = true ∧
        ticksSince now t.lastActive ≥ millisecondsToTicks inactivityTimeout := by
    unfold Task.ReachedInactivityTimeout
    cases hw : t.channel.IsWaitingForClient <;> simp
  refine ⟨hiff, ?_, ?_, ?_⟩
  · intro hdiff hticks
    rw [hiff]
    unfold ticksSince millisecondsToTicks
    rw [wrap64_of_InRange64 _ hdiff, wrap64_of_InRange64 _ hticks]
  · intro hw heq
    exact hiff.mpr ⟨hw, le_of_eq heq.symm⟩
  · intro hw
    cases h : t.ReachedInactivityTimeout inactivityTimeout now
    · rfl
    · rw [(hiff.mp h).1] at hw
      exact absurd hw (by decide)

/-- C11 on the waiting task, last active at 0, with a timeout of 10 ms: at
10 ms exactly it has timed out, one tick earlier it has not; a task in
`Process` has not timed out after 1000 s. -/
theorem ReachedInactivityTimeout_iff_witness :
    waitingTask.ReachedInactivityTimeout 10 10000000 = true ∧
      waitingTask.ReachedInactivityTimeout 10 9999999 = false ∧
      Task.ReachedInactivityTimeout 10 1000000000000
        ⟨⟨7, Stage.Process, 0⟩, 0, false⟩ = false :=
  ⟨(ReachedInactivityTimeout_iff 10 10000000 waitingTask).2.2.1 (by decide) (by decide),
    by
      have h := ((ReachedInactivityTimeout_iff 10 9999999 waitingTask).2.1
        (by decide) (by decide)).not
      simpa [waitingTask] using h,
    (ReachedInactivityTimeout_iff 10 1000000000000 ⟨⟨7, Stage.Process, 0⟩, 0, false⟩).2.2.2
      (by decide)⟩

/-! ### The wait event -/

/-- After a `Signal`, a history of waits that do not reset returns true at
every call and leaves the event signalled. -/
theorem run_plain_waits (e : WaitEvent) (ops : List WaitEvent.Op)
    (hsig : e.signalled = true) (hops : ∀ op ∈ ops, op.isPlainWait = true) :
    WaitEvent.run e ops = (ops.map (fun _ => some true), e) := by
  induction ops with
  | nil => rfl
  | cons op ops ih =>
    have hop := hops op (List.mem_cons_self _ _)
    have hrest := ih (fun op2 h2 => hops op2 (List.mem_cons_of_mem _ h2))
    cases op <;>
      simp_all [WaitEvent.run, WaitEvent.step, WaitEvent.Op.isPlainWait, WaitEvent.TryWait,
        WaitEvent.Wait, WaitEvent.WaitUntil]

/-- The state after any number of `Signal` calls, at least one. -/
theorem iterate_Signal (e : WaitEvent) (n : Nat) :
    (WaitEvent.Signal^[n + 1] e) = { signalled := true } := by
  induction n generalizing e with
  | zero => rfl
  | succ n ih => rw [Function.iterate_succ_apply, ih]

/-- C13: the wait event is manual-reset. After `Signal` every history of
non-resetting waits returns true at each call and leaves the event signalled;
after `Reset` they return false. A resetting wait returns the value of
`signalled`; after it the event is unsignalled, so a `TryWaitAndReset` that
follows returns false, and so does a non-resetting wait; a resetting wait
that returns false leaves the state as it was. Any number of `Signal` calls,
at least one, gives one true result of the resetting wait and false at the
next. -/
theorem WaitEvent_manual_reset (e : WaitEvent) (timeout : Int) (t : TimePoint) :
    (∀ ops : List WaitEvent.Op, (∀ op ∈ ops, op.isPlainWait = true) →
        WaitEvent.run e.Signal ops = (ops.map (fun _ => some true), e.Signal)) ∧
      (e.Signal.signalled = true ∧ e.Reset.TryWait = false ∧
        e.Reset.Wait timeout = false ∧ e.Reset.WaitUntil t = false) ∧
      (e.TryWaitAndReset.1 = e.signalled ∧ (e.WaitAndReset timeout).1 = e.signalled ∧
        (e.WaitUntilAndReset t).1 = e.signalled) ∧
      (e.TryWaitAndReset.2.signalled = false ∧ (e.WaitAndReset timeout).2.signalled = false ∧
        (e.WaitUntilAndReset t).2.signalled = false) ∧
      (e.TryWaitAndReset.2.TryWaitAndReset.1 = false ∧
        (e.WaitAndReset timeout).2.TryWaitAndReset.1 = false ∧
        (e.WaitUntilAndReset t).2.TryWaitAndReset.1 = false ∧
        e.Signal.TryWaitAndReset.2.TryWait = false) ∧
      ((e.TryWaitAndReset.1 = false → e.TryWaitAndReset.2 = e) ∧
        ((e.WaitAndReset timeout).1 = false → (e.WaitAndReset timeout).2 = e) ∧
        ((e.WaitUntilAndReset t).1 = false → (e.WaitUntilAndReset t).2 = e)) ∧
      (∀ n : Nat,
        (WaitEvent.Signal^[n + 1] e).TryWaitAndReset.1 = true ∧
          (WaitEvent.Signal^[n + 1] e).TryWaitAndReset.2.TryWaitAndReset.1 = false ∧
          ((WaitEvent.Signal^[n + 1] e).WaitAndReset timeout).1 = true ∧
          ((WaitEvent.Signal^[n + 1] e).WaitAndReset timeout).2.signalled = false ∧
          ((WaitEvent.Signal^[n + 1] e).WaitUntilAndReset t).1 = true ∧
          ((WaitEvent.Signal^[n + 1] e).WaitUntilAndReset t).2.signalled = false) := by
  obtain ⟨b⟩ := e
  refine ⟨?_, ?_, ?_, ?_, ?_, ?_, ?_⟩
  · intro ops hops
    exact run_plain_waits _ ops rfl hops
  · simp [WaitEvent.Signal, WaitEvent.Reset, WaitEvent.TryWait, WaitEvent.Wait,
      WaitEvent.WaitUntil]
  · cases b <;>
      simp [WaitEvent.TryWaitAndReset, WaitEvent.WaitAndReset, WaitEvent.WaitUntilAndReset]
  · cases b <;>
      simp [WaitEvent.TryWaitAndReset, WaitEvent.WaitAndReset, WaitEvent.WaitUntilAndReset]
  · cases b <;>
      simp [WaitEvent.TryWaitAndReset, WaitEvent.WaitAndReset, WaitEvent.WaitUntilAndReset,
        WaitEvent.Signal, WaitEvent.TryWait, WaitEvent.Wait]
  · cases b <;>
      simp [WaitEvent.TryWaitAndReset, WaitEvent.WaitAndReset, WaitEvent.WaitUntilAndReset]
  · intro n
    rw [iterate_Signal]
    simp [WaitEvent.TryWaitAndReset, WaitEvent.WaitAndReset, WaitEvent.WaitUntilAndReset]

/-- C13 on an unsignalled event: after `Signal` three non-resetting waits in
a row return true and the event is still signalled; a history of three
`Signal` calls, two `TryWaitAndReset` and a `TryWait` returns true, false,
false. -/
theorem WaitEvent_manual_reset_witness :
    WaitEvent.run (WaitEvent.Signal { signalled := false })
        [WaitEvent.Op.tryWait, WaitEvent.Op.wait 5, WaitEvent.Op.waitUntil 9] =
      ([some true, some true, some true], { signalled := true }) ∧
    (WaitEvent.run { signalled := false }
        [WaitEvent.Op.signal, WaitEvent.Op.signal, WaitEvent.Op.signal,
          WaitEvent.Op.tryWaitAndReset, WaitEvent.Op.tryWaitAndReset,
          WaitEvent.Op.tryWait]).1 =
      [none, none, none, some true, some false, some false] :=
  ⟨(WaitEvent_manual_reset { signalled := false } 5 9).1
      [WaitEvent.Op.tryWait, WaitEvent.Op.wait 5, WaitEvent.Op.waitUntil 9] (by decide),
    by decide⟩

/-! ### Dispatch -/

end Chili
